import Mathlib

/-!
# A shallow embedding of the `servicemesh` registry (gravestench/servicemesh)

This file models the registry/lifecycle engine of the Go package
`servicemesh` — the `mesh` struct of `mesh.go` together with the logging
factory of `logging.go` — and proves the behavioural claims about it.

Modelling conventions:

* A service is identified by a `SvcId` (a natural number standing for the Go
  interface value's identity; `svc == service` in Go is identity comparison).
  The mesh itself is a service with the reserved identity `meshId = 0`.
* A service's optional capabilities (`HasLogger`, `HasDependencies`,
  `HasGracefulShutdown`, the nine `EventHandler*` interfaces) are dynamic
  type tests in Go; here they are a capability environment `Env`, fixed per
  program run, mapping each identity to its capability record.
* Side effects are recorded in an explicit trace of `Action`s, in the exact
  order the Go statements execute them: event emissions, adapter-mediated
  handler invocations, logger assignments, log records, the termination
  signal send, the `shuttingDown` flag write, shutdown hooks, dependency
  resolution calls, sleeps, and `Init` calls.
* The event emitter is the documented black box: `Emit(topic, args)` records
  the emission and synchronously delivers to every subscription on the topic
  through the adapter closures that `bindEventHandlerInterfaces` registered;
  the adapter bodies are translated from `mesh.go` (ignoring deliveries with
  fewer than one argument for payload-carrying events).
* The dependency-resolution loop of `resolveDependenciesAndInit` is modelled
  with explicit fuel, returning `none` when the loop does not terminate
  within the fuel (the Go loop can spin forever).
* `slog` loggers are modelled by the data that determines them: the handler
  they wrap and the optional `service` name attribute. `slog.LevelInfo = 0`,
  `slog.LevelDebug = -4`.
-/

namespace Servicemesh

/-- Identity of a Go service value (`Service` interface value). -/
abbrev SvcId := Nat

/-- The registry itself is a service; it has this reserved identity
(`service != m` in the Go source becomes `sid ≠ meshId`). -/
def meshId : SvcId := 0

/-- Identity of an `io.Writer`; `os.Stdout` is writer `0`. -/
def stdoutId : Nat := 0

/-- `slog.LevelInfo`. -/
def levelInfo : Int := 0

/-- `slog.LevelDebug`. -/
def levelDebug : Int := -4

/-- A `slog.Handler` value: either a `slog.NewTextHandler(output, opts)`
created by `newLogger`, or an externally supplied handler
(`SetLogHandler`'s argument), identified by a number. -/
inductive Handler
  | text (output : Nat) (level : Int)
  | custom (id : Nat)
deriving DecidableEq, Repr

/-- A `*slog.Logger` value, determined by the handler it wraps and the
optional `service` name attribute attached via `logger.With`. -/
structure Logger where
  handler : Handler
  scope : Option String
deriving DecidableEq, Repr

/-- The nine optional `EventHandler*` interfaces of `interfaces.go`,
matched in `bindEventHandlerInterfaces` in this source order. -/
inductive HandlerKind
  | serviceAdded
  | serviceRemoved
  | serviceInitialized
  | serviceEventsBound
  | serviceLoggerBound
  | runLoopInitiated
  | shutdownInitiated
  | depResolutionStarted
  | depResolutionEnded
deriving DecidableEq, Repr

/-- The event name constants (topics) of the package. -/
def EventServiceAdded : String := "service added"

def EventServiceRemoved : String := "service removed"

def EventServiceInitialized : String := "service initialized"

def EventServiceEventsBound : String := "service events bound"

def EventServiceLoggerBound : String := "service logger bound"

def EventServiceMeshRunLoopInitiated : String := "run-loop initiated"

def EventServiceMeshShutdownInitiated : String := "shutdown initiated"

def EventDependencyResolutionStarted : String := "dependency resolution start"

def EventDependencyResolutionEnded : String := "dependency resolution end"

/-- The bus topic each `EventHandler*` interface subscribes to. -/
def topicOf : HandlerKind → String
  | HandlerKind.serviceAdded => EventServiceAdded
  | HandlerKind.serviceRemoved => EventServiceRemoved
  | HandlerKind.serviceInitialized => EventServiceInitialized
  | HandlerKind.serviceEventsBound => EventServiceEventsBound
  | HandlerKind.serviceLoggerBound => EventServiceLoggerBound
  | HandlerKind.runLoopInitiated => EventServiceMeshRunLoopInitiated
  | HandlerKind.shutdownInitiated => EventServiceMeshShutdownInitiated
  | HandlerKind.depResolutionStarted => EventDependencyResolutionStarted
  | HandlerKind.depResolutionEnded => EventDependencyResolutionEnded

/-- Display name of the Go event-handler interface, used in the
"bound ... event handler" debug lines of `bindEventHandlerInterfaces`. -/
def kindEventName : HandlerKind → String
  | HandlerKind.serviceAdded => "EventServiceAdded"
  | HandlerKind.serviceRemoved => "EventServiceRemoved"
  | HandlerKind.serviceInitialized => "EventServiceInitialized"
  | HandlerKind.serviceEventsBound => "EventServiceEventsBound"
  | HandlerKind.serviceLoggerBound => "EventServiceLoggerBound"
  | HandlerKind.runLoopInitiated => "EventServiceMeshRunLoopInitiated"
  | HandlerKind.shutdownInitiated => "EventServiceMeshShutdownInitiated"
  | HandlerKind.depResolutionStarted => "EventDependencyResolutionStarted"
  | HandlerKind.depResolutionEnded => "EventDependencyResolutionEnded"

/-- An argument of an event emission (`args ...interface{}`): either a
`Service` value or some other value (which the adapters drop). -/
inductive Payload
  | svc (i : SvcId)
  | other
deriving DecidableEq, Repr

/-- One observable step of the program, in program order. -/
inductive Action
  /-- `m.events.Emit(topic, args...)`. -/
  | emit (topic : String) (args : List Payload)
  /-- An adapter registered by `bindEventHandlerInterfaces` invoked the
  listening service's `On...` method with the given `Service` argument
  (`none` for the two argumentless handlers). -/
  | invoke (k : HandlerKind) (listener : SvcId) (arg : Option SvcId)
  /-- `candidate.SetLogger(...)` — a logger was assigned to a service. -/
  | setLogger (sid : SvcId) (l : Logger)
  /-- A leveled record written through a logger. -/
  | logRecord (level : Int) (msg : String)
  /-- `m.quit <- syscall.SIGINT` — the termination signal was delivered. -/
  | signalDelivered
  /-- `m.shuttingDown = true` — the shutting-down flag was set. -/
  | flagSet
  /-- `quitter.OnShutdown()` — a graceful-shutdown hook ran to completion. -/
  | onShutdown (sid : SvcId)
  /-- `resolver.ResolveDependencies(m)`. -/
  | resolveDeps (sid : SvcId)
  /-- `time.Sleep(time.Millisecond * n)`. -/
  | sleepMs (n : Nat)
  /-- `service.Init(m)` on an ordinary (non-mesh) service. -/
  | initCall (sid : SvcId)
deriving DecidableEq, Repr

/-- The capability record of a service value: which optional interfaces its
concrete type implements, and — for `HasDependencies` services — the result
of the `k`-th call to `DependenciesResolved()` (0-indexed). -/
structure SvcCaps where
  hasLogger : Bool := false
  hasDeps : Bool := false
  hasGraceful : Bool := false
  handles : HandlerKind → Bool := fun _ => false
  resolvedAt : Nat → Bool := fun _ => true

/-- The capability record of the mesh itself: it implements all nine
`EventHandler*` interfaces (`mesh.go` defines all nine `On...` methods) and
none of `HasLogger` / `HasDependencies` / `HasGracefulShutdown`. -/
def meshCaps : SvcCaps :=
  { handles := fun _ => true }

/-- The fixed environment of a program run: the capability record and the
`Name()` of every service identity. `meshId`'s capabilities are always
`meshCaps`. -/
structure Env where
  capsOf : SvcId → SvcCaps
  nameOf : SvcId → String

/-- Capabilities of a service identity, with the mesh's own fixed record. -/
def Env.caps (env : Env) (sid : SvcId) : SvcCaps :=
  if sid = meshId then meshCaps else env.capsOf sid

/-- The mutable state of the `mesh` struct. `services = none` models the
`nil` slice before lazy initialization; `subs` is the subscription table of
the event emitter (topic, adapter kind, listening service); `svcLoggers`
models the logger field of each `HasLogger` service (set via `SetLogger`,
most recent assignment first). -/
structure MeshState where
  name : String
  services : Option (List SvcId)
  logOutput : Option Nat
  logLevel : Int
  logHandler : Option Handler
  logger : Option Logger
  shuttingDown : Bool
  quitMade : Bool
  subs : List (String × HandlerKind × SvcId)
  svcLoggers : List (SvcId × Logger)
deriving DecidableEq, Repr

/-- Read a service's logger field (`l.Logger()`), `none` when unset. -/
def lookupLogger : List (SvcId × Logger) → SvcId → Option Logger
  | [], _ => none
  | (k, v) :: rest, sid => if k = sid then some v else lookupLogger rest sid

/-- `candidate.SetLogger(l)` on service `sid`. -/
def setSvcLogger (m : MeshState) (sid : SvcId) (l : Logger) : MeshState :=
  { m with svcLoggers := (sid, l) :: m.svcLoggers }

/-- `newLogger` from `logging.go`: defaults a `nil` output to stdout,
creates (and caches) a text handler only when none exists yet, and attaches
the `service` name attribute unless the service is the registry itself.
Returns the possibly-updated state together with the produced logger. -/
def newLogger (env : Env) (m : MeshState) (sid : SvcId) : MeshState × Logger :=
  let m1 := match m.logOutput with
    | none => { m with logOutput := some stdoutId }
    | some _ => m
  let m2 := match m1.logHandler with
    | none =>
        { m1 with logHandler := some (Handler.text (m1.logOutput.getD stdoutId) m1.logLevel) }
    | some _ => m1
  let h := m2.logHandler.getD (Handler.text stdoutId m2.logLevel)
  (m2, { handler := h, scope := if sid = meshId then none else some (env.nameOf sid) })

/-- The adapter closure that `bindEventHandlerInterfaces` registers for a
handler kind: the two argumentless handlers are invoked unconditionally; all
others return without invoking the handler when fewer than one argument is
delivered or when the first argument is not a `Service`. -/
def adapterRun (k : HandlerKind) (listener : SvcId) (args : List Payload) : List Action :=
  match k with
  | HandlerKind.runLoopInitiated => [Action.invoke k listener none]
  | HandlerKind.shutdownInitiated => [Action.invoke k listener none]
  | _ =>
    match args with
    | [] => []
    | Payload.svc i :: _ => [Action.invoke k listener (some i)]
    | Payload.other :: _ => []

/-- Synchronous delivery of an emission to each subscription on the topic,
in subscription order (black-box behaviour of the event emitter). -/
def deliverAll (subs : List (String × HandlerKind × SvcId)) (topic : String)
    (args : List Payload) : List Action :=
  match subs with
  | [] => []
  | (tp, k, s) :: rest =>
      (if tp = topic then adapterRun k s args else []) ++ deliverAll rest topic args

/-- `m.events.Emit(topic, args...)`: records the emission and delivers it. -/
def emitEvent (m : MeshState) (topic : String) (args : List Payload) : List Action :=
  Action.emit topic args :: deliverAll m.subs topic args

/-- Subscribe one `EventHandler*` capability if the service implements it
(one `if handler, ok := service.(...)` block of `bindEventHandlerInterfaces`),
logging the debug line when the service is not the mesh itself. -/
def bindKind (env : Env) (m : MeshState) (sid : SvcId) (k : HandlerKind) :
    MeshState × List Action :=
  if (env.caps sid).handles k then
    ({ m with subs := m.subs ++ [(topicOf k, k, sid)] },
      if sid = meshId then []
      else [Action.logRecord levelDebug ("bound " ++ kindEventName k ++ " event handler")])
  else (m, [])

/-- Run `bindKind` over a list of handler kinds in order. -/
def bindList (env : Env) (m : MeshState) (sid : SvcId) :
    List HandlerKind → MeshState × List Action
  | [] => (m, [])
  | k :: ks =>
      let p := bindKind env m sid k
      let q := bindList env p.1 sid ks
      (q.1, p.2 ++ q.2)

/-- The source order of the nine capability checks in
`bindEventHandlerInterfaces`. -/
def allHandlerKinds : List HandlerKind :=
  [HandlerKind.serviceAdded, HandlerKind.serviceRemoved,
   HandlerKind.serviceInitialized, HandlerKind.serviceEventsBound,
   HandlerKind.serviceLoggerBound, HandlerKind.runLoopInitiated,
   HandlerKind.shutdownInitiated, HandlerKind.depResolutionStarted,
   HandlerKind.depResolutionEnded]

/-- `mesh.bindEventHandlerInterfaces`. -/
def bindEventHandlerInterfaces (env : Env) (m : MeshState) (sid : SvcId) :
    MeshState × List Action :=
  bindList env m sid allHandlerKinds

/-- `mesh.Init`: lazy self-initialization — a no-op once the service
collection exists; otherwise creates the registry's logger, logs
"initializing", installs the termination channel and allocates the empty
collection. -/
def Init (env : Env) (m : MeshState) : MeshState × List Action :=
  match m.services with
  | some _ => (m, [])
  | none =>
      let p := newLogger env m meshId
      ({ p.1 with logger := some p.2, quitMade := true, services := some [] },
        [Action.logRecord levelInfo "initializing"])

/-- The concurrently scheduled part of `Add` (the goroutine body), to be run
when the returned `WaitGroup` is waited on. -/
inductive Pending
  | resolveAndInit (sid : SvcId)
  | initOnly (sid : SvcId)
deriving DecidableEq, Repr

/-- `mesh.Add`: ensure self-init, bind event handlers, log
"preparing service" for foreign services, synchronously assign a fresh
logger and emit (and wait on) `EventServiceLoggerBound` when the service is
a `HasLogger`, append the service to the collection, and schedule the
initialization task. Returns the new state, the synchronous trace, and the
scheduled task. -/
def Add (env : Env) (m : MeshState) (sid : SvcId) :
    MeshState × List Action × Pending :=
  let p1 := Init env m
  let p2 := bindEventHandlerInterfaces env p1.1 sid
  let t3 : List Action :=
    if sid = meshId then [] else [Action.logRecord levelInfo "preparing service"]
  let p4 : MeshState × List Action :=
    if (env.caps sid).hasLogger then
      let pl := newLogger env p2.1 sid
      let mb := setSvcLogger pl.1 sid pl.2
      (mb, Action.setLogger sid pl.2 :: emitEvent mb EventServiceLoggerBound [Payload.svc sid])
    else (p2.1, [])
  let m5 := { p4.1 with services := some (p4.1.services.getD [] ++ [sid]) }
  (m5, p1.2 ++ p2.2 ++ t3 ++ p4.2,
    if (env.caps sid).hasDeps then Pending.resolveAndInit sid else Pending.initOnly sid)

/-- `mesh.initService`: debug-log "initializing" (through the service's own
logger when present, else a freshly derived one — a call that can lazily
set the log output/handler), call the service's `Init`, then emit
`EventServiceInitialized`. -/
def initService (env : Env) (m : MeshState) (sid : SvcId) : MeshState × List Action :=
  let p1 : MeshState × List Action :=
    if (env.caps sid).hasLogger && (lookupLogger m.svcLoggers sid).isSome then
      (m, [Action.logRecord levelDebug "initializing"])
    else
      ((newLogger env m sid).1, [Action.logRecord levelDebug "initializing"])
  let p2 : MeshState × List Action :=
    if sid = meshId then Init env p1.1 else (p1.1, [Action.initCall sid])
  (p2.1, p1.2 ++ p2.2 ++ emitEvent p2.1 EventServiceInitialized [Payload.svc sid])

/-- The polling loop of `resolveDependenciesAndInit`, with explicit fuel:
`k` counts the `DependenciesResolved()` calls made so far; while the check
is false, call `ResolveDependencies` and sleep the fixed 10 ms dwell
interval, then re-check. `none` when the fuel runs out before the check
succeeds. -/
def depLoop (resolvedAt : Nat → Bool) (sid : SvcId) (fuel k : Nat) :
    Option (List Action) :=
  if resolvedAt k then some []
  else
    match fuel with
    | 0 => none
    | f + 1 =>
        (depLoop resolvedAt sid f (k + 1)).map
          (fun rest => Action.resolveDeps sid :: Action.sleepMs 10 :: rest)

/-- `mesh.resolveDependenciesAndInit`: emit `DependencyResolutionStarted`,
run the polling loop, emit `DependencyResolutionEnded`, then initialize. -/
def resolveDependenciesAndInit (env : Env) (m : MeshState) (sid : SvcId)
    (fuel : Nat) : Option (MeshState × List Action) :=
  let t0 := emitEvent m EventDependencyResolutionStarted [Payload.svc sid]
  match depLoop (env.caps sid).resolvedAt sid fuel 0 with
  | none => none
  | some tl =>
      let t1 := emitEvent m EventDependencyResolutionEnded [Payload.svc sid]
      let p2 := initService env m sid
      some (p2.1, t0 ++ tl ++ t1 ++ p2.2)

/-- Run the task scheduled by `Add` (the goroutine body): the appropriate
initialization path followed by the `EventServiceAdded` emission. -/
def runPending (env : Env) (m : MeshState) (p : Pending) (fuel : Nat) :
    Option (MeshState × List Action) :=
  match p with
  | Pending.initOnly sid =>
      let q := initService env m sid
      some (q.1, q.2 ++ emitEvent q.1 EventServiceAdded [Payload.svc sid])
  | Pending.resolveAndInit sid =>
      match resolveDependenciesAndInit env m sid fuel with
      | none => none
      | some q => some (q.1, q.2 ++ emitEvent q.1 EventServiceAdded [Payload.svc sid])

/-- `Add` followed by waiting on the returned completion handle: the
synchronous part of `Add`, then the scheduled initialization task. -/
def AddAndWait (env : Env) (m : MeshState) (sid : SvcId) (fuel : Nat) :
    Option (MeshState × List Action) :=
  let p := Add env m sid
  match runPending env p.1 p.2.2 fuel with
  | none => none
  | some q => some (q.1, p.2.1 ++ q.2)

/-- `mesh.Services`: `append([]Service{}, m.services...)` — a defensive
copy of the collection in registration order. -/
def Services (m : MeshState) : List SvcId :=
  List.append [] (m.services.getD [])

/-- The excision loop of `mesh.Remove`: scan for the first identity match,
log and drop it, leaving everything else (including later duplicates). -/
def removeLoop (sid : SvcId) : List SvcId → List Action × List SvcId
  | [] => ([], [])
  | s :: rest =>
      if s = sid then ([Action.logRecord levelInfo "removing service"], rest)
      else
        let p := removeLoop sid rest
        (p.1, s :: p.2)

/-- `mesh.Remove`: emit `EventServiceRemoved` with no payload first, then
excise the first identity match (a no-op when the service is absent). -/
def Remove (_env : Env) (m : MeshState) (sid : SvcId) : MeshState × List Action :=
  let t0 := emitEvent m EventServiceRemoved []
  let p := removeLoop sid (m.services.getD [])
  ({ m with services := m.services.map (fun _ => p.2) }, t0 ++ p.1)

/-- The completion handle (`*sync.WaitGroup`) returned by `Shutdown`:
either the fresh, already-satisfied `&sync.WaitGroup{}` of the idempotent
early return, or the wait group of the `EventServiceMeshShutdownInitiated`
emission. -/
inductive Handle
  | freshWG
  | emitWG (topic : String)
deriving DecidableEq, Repr

/-- The graceful-shutdown loop of `mesh.Shutdown`: for every service in
registration order implementing `HasGracefulShutdown`, log (through the
service's own logger when present) and call `OnShutdown()` synchronously. -/
def shutdownHookActions (env : Env) (m : MeshState) : List SvcId → List Action
  | [] => []
  | sid :: rest =>
      (if (env.caps sid).hasGraceful then
        (if (env.caps sid).hasLogger && (lookupLogger m.svcLoggers sid).isSome then
          [Action.logRecord levelInfo "shutting down"]
        else [Action.logRecord levelInfo "shutting down service"])
        ++ [Action.onShutdown sid]
      else []) ++ shutdownHookActions env m rest

/-- `mesh.Shutdown`: an idempotent no-op returning a fresh wait group when
already shutting down; otherwise delivers the termination signal, sets the
shutting-down flag, emits `EventServiceMeshShutdownInitiated`, runs the
graceful-shutdown hooks sequentially over the current collection, and logs
"exiting". -/
def Shutdown (env : Env) (m : MeshState) : MeshState × List Action × Handle :=
  if m.shuttingDown then (m, [], Handle.freshWG)
  else
    let m1 := { m with shuttingDown := true }
    (m1,
      Action.signalDelivered :: Action.flagSet ::
        emitEvent m1 EventServiceMeshShutdownInitiated []
        ++ shutdownHookActions env m1 (m1.services.getD [])
        ++ [Action.logRecord levelInfo "exiting"],
      Handle.emitWG EventServiceMeshShutdownInitiated)

/-- The loop body of `updateServiceLoggers` over a service list: re-derive
and re-assign a fresh logger for every `HasLogger` service. -/
def updLoop (env : Env) (m : MeshState) : List SvcId → MeshState × List Action
  | [] => (m, [])
  | sid :: rest =>
      if (env.caps sid).hasLogger then
        let pl := newLogger env m sid
        let m2 := setSvcLogger pl.1 sid pl.2
        let q := updLoop env m2 rest
        (q.1, Action.setLogger sid pl.2 :: q.2)
      else updLoop env m rest

/-- `mesh.updateServiceLoggers`: iterate the `Services()` copy. -/
def updateServiceLoggers (env : Env) (m : MeshState) : MeshState × List Action :=
  updLoop env m (Services m)

/-- `mesh.SetLogLevel`: replace the level, log the change at info level,
regenerate the registry's logger, propagate to all logger-capable
services. -/
def SetLogLevel (env : Env) (m : MeshState) (level : Int) : MeshState × List Action :=
  let m1 := { m with logLevel := level }
  let t0 := [Action.logRecord levelInfo ("setting log level to " ++ toString level)]
  let pl := newLogger env m1 meshId
  let m3 := { pl.1 with logger := some pl.2 }
  let q := updateServiceLoggers env m3
  (q.1, t0 ++ q.2)

/-- `mesh.SetLogDestination`: replace the output, regenerate the registry's
logger, propagate. No log record is written. -/
def SetLogDestination (env : Env) (m : MeshState) (dst : Nat) : MeshState × List Action :=
  let m1 := { m with logOutput := some dst }
  let pl := newLogger env m1 meshId
  let m3 := { pl.1 with logger := some pl.2 }
  let q := updateServiceLoggers env m3
  (q.1, q.2)

/-- `mesh.SetLogHandler`: replace the handler, regenerate the registry's
logger, propagate. No log record is written. -/
def SetLogHandler (env : Env) (m : MeshState) (h : Handler) : MeshState × List Action :=
  let m1 := { m with logHandler := some h }
  let pl := newLogger env m1 meshId
  let m3 := { pl.1 with logger := some pl.2 }
  let q := updateServiceLoggers env m3
  (q.1, q.2)

/-- The zero value of the `mesh` struct as `New` populates it, before the
self-`Add`. -/
def initialState (name : String) : MeshState :=
  { name := name, services := none, logOutput := some stdoutId,
    logLevel := levelInfo, logHandler := none, logger := none,
    shuttingDown := false, quitMade := false, subs := [], svcLoggers := [] }

/-- `servicemesh.New`: construct the registry and add it to itself. -/
def New (env : Env) (name : String) : MeshState :=
  (Add env (initialState name) meshId).1

/-- One public registry operation, for stating trace/invariant properties
over arbitrary call sequences. -/
inductive Op
  | add (sid : SvcId)
  | remove (sid : SvcId)
  | servicesQuery
  | shutdown
  | setLevel (l : Int)
  | setDest (w : Nat)
  | setHandler (h : Handler)
deriving DecidableEq, Repr

/-- Apply one public operation (its synchronous part) to the state. -/
def applyOp (env : Env) (m : MeshState) : Op → MeshState
  | Op.add sid => (Add env m sid).1
  | Op.remove sid => (Remove env m sid).1
  | Op.servicesQuery => m
  | Op.shutdown => (Shutdown env m).1
  | Op.setLevel l => (SetLogLevel env m l).1
  | Op.setDest w => (SetLogDestination env m w).1
  | Op.setHandler h => (SetLogHandler env m h).1

/-- Apply a sequence of public operations in order. -/
def applyOps (env : Env) (m : MeshState) : List Op → MeshState
  | [] => m
  | op :: ops => applyOps env (applyOp env m op) ops

/-! ## Trace classifiers -/

/-- Number of emissions of a given topic in a trace. -/
def countEmitsOf (topic : String) : List Action → Nat
  | [] => 0
  | a :: t =>
      (match a with
        | Action.emit tp _ => if tp = topic then 1 else 0
        | _ => 0) + countEmitsOf topic t

/-- Number of `ResolveDependencies` calls on a given service in a trace. -/
def countResolveCalls (sid : SvcId) : List Action → Nat
  | [] => 0
  | a :: t => (if a = Action.resolveDeps sid then 1 else 0) + countResolveCalls sid t

/-- Total milliseconds slept in a trace. -/
def sleepTotal : List Action → Nat
  | [] => 0
  | a :: t =>
      (match a with
        | Action.sleepMs n => n
        | _ => 0) + sleepTotal t

/-- The subtrace of event emissions, in order. -/
def emitsOnly : List Action → List Action
  | [] => []
  | a :: t =>
      (match a with
        | Action.emit tp ar => [Action.emit tp ar]
        | _ => []) ++ emitsOnly t

/-- The services whose `OnShutdown` hook ran, in invocation order. -/
def onShutdownList : List Action → List SvcId
  | [] => []
  | a :: t =>
      (match a with
        | Action.onShutdown s => [s]
        | _ => []) ++ onShutdownList t

/-- Index of the first occurrence of an action in a trace (trace length when
absent). -/
def firstIdx (a : Action) : List Action → Nat
  | [] => 0
  | b :: t => if b = a then 0 else firstIdx a t + 1

/-- Whether a trace contains an informational log record. -/
def hasInfoRecord (t : List Action) : Bool :=
  t.any fun a =>
    match a with
    | Action.logRecord lv _ => lv == levelInfo
    | _ => false

/-- Whether an action is an adapter invocation of an `OnServiceRemoved`
handler. -/
def isServiceRemovedInvoke : Action → Bool
  | Action.invoke HandlerKind.serviceRemoved _ _ => true
  | _ => false

theorem countEmitsOf_append (tp : String) (s t : List Action) :
    countEmitsOf tp (s ++ t) = countEmitsOf tp s + countEmitsOf tp t := by
  induction s with
  | nil => simp [countEmitsOf]
  | cons a s ih => simp [countEmitsOf, ih]; omega

theorem countResolveCalls_append (sid : SvcId) (s t : List Action) :
    countResolveCalls sid (s ++ t) = countResolveCalls sid s + countResolveCalls sid t := by
  induction s with
  | nil => simp [countResolveCalls]
  | cons a s ih => simp [countResolveCalls, ih]; omega

theorem sleepTotal_append (s t : List Action) :
    sleepTotal (s ++ t) = sleepTotal s + sleepTotal t := by
  induction s with
  | nil => simp [sleepTotal]
  | cons a s ih => simp [sleepTotal, ih]; omega

theorem emitsOnly_append (s t : List Action) :
    emitsOnly (s ++ t) = emitsOnly s ++ emitsOnly t := by
  induction s with
  | nil => simp [emitsOnly]
  | cons a s ih => simp [emitsOnly, ih]

theorem onShutdownList_append (s t : List Action) :
    onShutdownList (s ++ t) = onShutdownList s ++ onShutdownList t := by
  induction s with
  | nil => simp [onShutdownList]
  | cons a s ih => simp [onShutdownList, ih]

theorem mem_emitsOnly {a : Action} {t : List Action} (h : a ∈ emitsOnly t) : a ∈ t := by
  induction t with
  | nil => simp [emitsOnly] at h
  | cons b t ih =>
      cases b <;> simp [emitsOnly] at h <;>
        first
          | exact List.mem_cons_of_mem _ (ih h)
          | (rcases h with h | h
             · exact h ▸ List.mem_cons_self _ _
             · exact List.mem_cons_of_mem _ (ih h))

theorem mem_onShutdownList {s : SvcId} {t : List Action}
    (h : Action.onShutdown s ∈ t) : s ∈ onShutdownList t := by
  induction t with
  | nil => simp at h
  | cons b t ih =>
      rcases List.mem_cons.1 h with hb | hm
      · rw [← hb]; simp [onShutdownList]
      · have hrec := ih hm
        cases b <;> simp [onShutdownList] <;> first | exact hrec | exact Or.inr hrec

/-! ## Adapter and delivery lemmas -/

theorem adapterRun_cases (k : HandlerKind) (s : SvcId) (args : List Payload) :
    adapterRun k s args = [] ∨ ∃ arg, adapterRun k s args = [Action.invoke k s arg] := by
  cases k <;> (try exact Or.inr ⟨none, rfl⟩) <;>
    (cases args with
      | nil => exact Or.inl rfl
      | cons a t =>
          cases a with
          | svc i => exact Or.inr ⟨some i, rfl⟩
          | other => exact Or.inl rfl)

theorem mem_adapterRun {a : Action} {k : HandlerKind} {s : SvcId} {args : List Payload}
    (h : a ∈ adapterRun k s args) : ∃ arg, a = Action.invoke k s arg := by
  rcases adapterRun_cases k s args with hc | ⟨arg, hc⟩
  · rw [hc] at h; simp at h
  · rw [hc] at h; simp at h; exact ⟨arg, h⟩

theorem mem_deliverAll {a : Action} {subs : List (String × HandlerKind × SvcId)}
    {tp : String} {args : List Payload} (h : a ∈ deliverAll subs tp args) :
    ∃ k s, a ∈ adapterRun k s args := by
  induction subs with
  | nil => simp [deliverAll] at h
  | cons p rest ih =>
      obtain ⟨tp', k, s⟩ := p
      rw [deliverAll] at h
      rcases List.mem_append.1 h with h1 | h2
      · by_cases htp : tp' = tp
        · rw [if_pos htp] at h1; exact ⟨k, s, h1⟩
        · rw [if_neg htp] at h1; simp at h1
      · exact ih h2

theorem mem_emitEvent {a : Action} {m : MeshState} {tp : String} {args : List Payload}
    (h : a ∈ emitEvent m tp args) :
    a = Action.emit tp args ∨ ∃ k s arg, a = Action.invoke k s arg := by
  rcases List.mem_cons.1 h with h | h
  · exact Or.inl h
  · obtain ⟨k, s, hmem⟩ := mem_deliverAll h
    obtain ⟨arg, ha⟩ := mem_adapterRun hmem
    exact Or.inr ⟨k, s, arg, ha⟩

theorem countEmitsOf_adapterRun (tp : String) (k : HandlerKind) (s : SvcId)
    (args : List Payload) : countEmitsOf tp (adapterRun k s args) = 0 := by
  rcases adapterRun_cases k s args with hc | ⟨arg, hc⟩ <;> rw [hc] <;> rfl

theorem countEmitsOf_deliverAll (tp : String) (subs : List (String × HandlerKind × SvcId))
    (topic : String) (args : List Payload) :
    countEmitsOf tp (deliverAll subs topic args) = 0 := by
  induction subs with
  | nil => rfl
  | cons p rest ih =>
      obtain ⟨tp', k, s⟩ := p
      rw [deliverAll, countEmitsOf_append, ih]
      by_cases htp : tp' = topic
      · rw [if_pos htp, countEmitsOf_adapterRun]
      · rw [if_neg htp]; rfl

theorem countEmitsOf_emitEvent (tp : String) (m : MeshState) (topic : String)
    (args : List Payload) :
    countEmitsOf tp (emitEvent m topic args) = if topic = tp then 1 else 0 := by
  rw [emitEvent, countEmitsOf, countEmitsOf_deliverAll]; omega

theorem emitsOnly_adapterRun (k : HandlerKind) (s : SvcId) (args : List Payload) :
    emitsOnly (adapterRun k s args) = [] := by
  rcases adapterRun_cases k s args with hc | ⟨arg, hc⟩ <;> rw [hc] <;> rfl

theorem emitsOnly_deliverAll (subs : List (String × HandlerKind × SvcId))
    (topic : String) (args : List Payload) :
    emitsOnly (deliverAll subs topic args) = [] := by
  induction subs with
  | nil => rfl
  | cons p rest ih =>
      obtain ⟨tp', k, s⟩ := p
      rw [deliverAll, emitsOnly_append, ih]
      by_cases htp : tp' = topic
      · rw [if_pos htp, emitsOnly_adapterRun]; rfl
      · rw [if_neg htp]; rfl

theorem emitsOnly_emitEvent (m : MeshState) (topic : String) (args : List Payload) :
    emitsOnly (emitEvent m topic args) = [Action.emit topic args] := by
  rw [emitEvent, emitsOnly, emitsOnly_deliverAll]; rfl

/-! ## Remove lemmas -/

theorem removeLoop_not_mem (sid : SvcId) :
    ∀ l : List SvcId, sid ∉ l → removeLoop sid l = ([], l) := by
  intro l
  induction l with
  | nil => intro _; rfl
  | cons s rest ih =>
      intro h
      simp only [List.mem_cons, not_or] at h
      have hs : ¬ s = sid := fun he => h.1 he.symm
      simp only [removeLoop, if_neg hs, ih h.2]

theorem removeLoop_split (sid : SvcId) :
    ∀ pre post : List SvcId, sid ∉ pre →
      removeLoop sid (pre ++ sid :: post) =
        ([Action.logRecord levelInfo "removing service"], pre ++ post) := by
  intro pre
  induction pre with
  | nil => intro post _; simp [removeLoop]
  | cons s pre ih =>
      intro post h
      simp only [List.mem_cons, not_or] at h
      have hs : ¬ s = sid := fun he => h.1 he.symm
      simp only [List.cons_append, removeLoop, if_neg hs, List.append_eq, ih post h.2]

theorem removeLoop_fst (sid : SvcId) :
    ∀ l : List SvcId, (removeLoop sid l).1 = [] ∨
      (removeLoop sid l).1 = [Action.logRecord levelInfo "removing service"] := by
  intro l
  induction l with
  | nil => exact Or.inl rfl
  | cons s rest ih =>
      by_cases hs : s = sid
      · right; simp [removeLoop, hs]
      · simpa [removeLoop, hs] using ih

/-! ## Shutdown lemmas -/

theorem onShutdownList_shutdownHookActions (env : Env) (m : MeshState) :
    ∀ l : List SvcId,
      onShutdownList (shutdownHookActions env m l)
        = l.filter fun s => (env.caps s).hasGraceful := by
  intro l
  induction l with
  | nil => rfl
  | cons s rest ih =>
      by_cases hg : (env.caps s).hasGraceful = true
      · by_cases hl : ((env.caps s).hasLogger && (lookupLogger m.svcLoggers s).isSome) = true <;>
          simp [shutdownHookActions, hg, hl, onShutdownList_append, onShutdownList,
            List.filter_cons, ih]
      · have hg' : (env.caps s).hasGraceful = false := by
          cases hfg : (env.caps s).hasGraceful with
          | false => rfl
          | true => exact absurd hfg hg
        simp [shutdownHookActions, hg', List.filter_cons, ih]

/-! ## Concrete environments and states for witnesses and counterexamples -/

/-- An environment in which every foreign service has no optional
capability. -/
def envPlain : Env :=
  { capsOf := fun _ => {}, nameOf := fun _ => "example" }

/-- An environment in which service 1 implements `HasGracefulShutdown` and
nothing else. -/
def envGrace : Env :=
  { capsOf := fun sid => if sid = 1 then { hasGraceful := true } else {},
    nameOf := fun _ => "example" }

/-- A running mesh holding itself and service 1. -/
def stTwo : MeshState :=
  { initialState "Service Mesh" with services := some [meshId, 1] }

/-- A mesh already shutting down. -/
def stDown : MeshState :=
  { initialState "Service Mesh" with services := some [meshId], shuttingDown := true }

/-- A mesh holding itself and services 1, 2 and a duplicate of 1. -/
def stDup : MeshState :=
  { initialState "Service Mesh" with services := some [meshId, 1, 2, 1] }

/-! ## C1 — Shutdown sequencing -/

/-- C1 (counterexample): the claim orders the shutting-down-flag write
before the delivery of the termination signal, but on a concrete
not-yet-shutting-down mesh the `Shutdown` trace delivers the signal
(`m.quit <- syscall.SIGINT`) strictly before setting the flag
(`m.shuttingDown = true`), so the flag write does not precede the signal. -/
theorem shutdown_flag_before_signal_false :
    ¬ (firstIdx Action.flagSet (Shutdown envGrace stTwo).2.1
        < firstIdx Action.signalDelivered (Shutdown envGrace stTwo).2.1) := by
  decide

/-- C1 (amended): for every mesh not already shutting down, `Shutdown`
delivers the termination signal, then sets the shutting-down flag, then
emits `EventServiceMeshShutdownInitiated`, and then iterates the current
service collection in registration order, invoking `OnShutdown`
sequentially on exactly the services implementing `HasGracefulShutdown`
(the hook list, in order, is the registration-order sublist of
graceful services); services without that capability have no hook
invoked. -/
theorem shutdown_signal_flag_emit_hooks (env : Env) (m : MeshState)
    (h : m.shuttingDown = false) :
    Shutdown env m =
      ({ m with shuttingDown := true },
        Action.signalDelivered :: Action.flagSet ::
          (emitEvent { m with shuttingDown := true }
              EventServiceMeshShutdownInitiated []
            ++ shutdownHookActions env { m with shuttingDown := true }
                (m.services.getD [])
            ++ [Action.logRecord levelInfo "exiting"]),
        Handle.emitWG EventServiceMeshShutdownInitiated) ∧
    onShutdownList (shutdownHookActions env { m with shuttingDown := true }
        (m.services.getD []))
      = (m.services.getD []).filter (fun s => (env.caps s).hasGraceful) ∧
    (∀ s, (env.caps s).hasGraceful = false →
      Action.onShutdown s ∉ (Shutdown env m).2.1) := by
  have htr : Shutdown env m =
      ({ m with shuttingDown := true },
        Action.signalDelivered :: Action.flagSet ::
          (emitEvent { m with shuttingDown := true }
              EventServiceMeshShutdownInitiated []
            ++ shutdownHookActions env { m with shuttingDown := true }
                (m.services.getD [])
            ++ [Action.logRecord levelInfo "exiting"]),
        Handle.emitWG EventServiceMeshShutdownInitiated) := by
    simp [Shutdown, h]
  refine ⟨htr, onShutdownList_shutdownHookActions env _ _, ?_⟩
  intro s hg hmem
  rw [htr] at hmem
  simp only [List.mem_cons, List.mem_append] at hmem
  rcases hmem with hmem | hmem | (hmem | hmem) | hmem
  · exact absurd hmem (by simp)
  · exact absurd hmem (by simp)
  · rcases mem_emitEvent hmem with he | ⟨k, s', arg, he⟩ <;> simp at he
  · have hs := mem_onShutdownList hmem
    rw [onShutdownList_shutdownHookActions env _ _] at hs
    have := (List.mem_filter.1 hs).2
    rw [hg] at this
    exact absurd this (by simp)
  · simp at hmem

/-- C1 (witness): on a concrete two-service mesh where only service 1 is
graceful, the shutdown hook list is exactly `[1]`. -/
theorem shutdown_signal_flag_emit_hooks_witness :
    onShutdownList (shutdownHookActions envGrace { stTwo with shuttingDown := true }
        (stTwo.services.getD [])) = [1] :=
  ((shutdown_signal_flag_emit_hooks envGrace stTwo rfl).2.1).trans (by decide)

/-! ## C4 — Shutdown idempotence -/

/-- C4: on a mesh whose shutting-down flag is set, every further `Shutdown`
call returns the state unchanged, performs no action (in particular invokes
no shutdown hook), and hands back a fresh, already-satisfied wait group. -/
theorem shutdown_idempotent (env : Env) (m : MeshState) (h : m.shuttingDown = true) :
    Shutdown env m = (m, [], Handle.freshWG) := by
  simp [Shutdown, h]

/-- C4 (witness): concrete second `Shutdown` call on a mesh that is already
shutting down. -/
theorem shutdown_idempotent_witness :
    stDown.shuttingDown = true ∧
    Shutdown envPlain stDown = (stDown, [], Handle.freshWG) :=
  ⟨rfl, shutdown_idempotent envPlain stDown rfl⟩

/-! ## C7 — Remove -/

/-- C7: `Remove` first emits `EventServiceRemoved` with no payload (it is
the head of the trace), is a no-op on the collection when the service is
absent, and otherwise excises exactly the first identity match: splitting
the collection around that first match, the result drops that one
occurrence (later duplicates survive) and the length decreases by exactly
one. -/
theorem remove_emits_then_excises_first (env : Env) (m : MeshState) (sid : SvcId) :
    ((Remove env m sid).2).head? = some (Action.emit EventServiceRemoved []) ∧
    (sid ∉ m.services.getD [] → (Remove env m sid).1 = m) ∧
    (∀ pre post, m.services = some (pre ++ sid :: post) → sid ∉ pre →
      (Remove env m sid).1.services = some (pre ++ post) ∧
      ((Remove env m sid).1.services.getD []).length + 1
        = (m.services.getD []).length) := by
  refine ⟨rfl, ?_, ?_⟩
  · intro h
    cases hs : m.services with
    | none =>
        have h1 : (Remove env m sid).1 = { m with services := none } := by
          simp [Remove, hs]
        rw [h1, ← hs]
    | some l =>
        have hn : sid ∉ l := by rw [hs] at h; simpa using h
        have h1 : (Remove env m sid).1 = { m with services := some l } := by
          simp [Remove, hs, removeLoop_not_mem sid l hn]
        rw [h1, ← hs]
  · intro pre post hsplit hpre
    have hr := removeLoop_split sid pre post hpre
    constructor
    · simp [Remove, hsplit, hr]
    · simp [Remove, hsplit, hr]; omega

/-- C7 (witness): removing service 1 from the collection
`[meshId, 1, 2, 1]` excises only the first occurrence, leaving the later
duplicate, and shrinks the length by exactly one. -/
theorem remove_emits_then_excises_first_witness :
    (Remove envPlain stDup 1).1.services = some ([meshId] ++ [2, 1]) ∧
    ((Remove envPlain stDup 1).1.services.getD []).length + 1
      = (stDup.services.getD []).length :=
  (remove_emits_then_excises_first envPlain stDup 1).2.2 [meshId] [2, 1]
    (by decide) (by decide)

/-! ## C9 — Services defensive copy -/

/-- The heap of slice backing arrays: `Services()` allocates a fresh slice
(`append([]Service{}, m.services...)`) at a fresh reference and copies the
registry's collection into it. -/
def servicesSnapshot (heap : List (List SvcId)) (meshRef : Nat) :
    List (List SvcId) × Nat :=
  (heap ++ [List.append [] (heap.getD meshRef [])], heap.length)

/-- An in-place element write through a slice reference — the mutation a
caller may perform on the sequence `Services()` returned. -/
def sliceWrite (heap : List (List SvcId)) (ref i : Nat) (v : SvcId) :
    List (List SvcId) :=
  heap.set ref ((heap.getD ref []).set i v)

theorem getD_append_length (heap : List (List SvcId)) (x : List SvcId) :
    (heap ++ [x]).getD heap.length [] = x := by
  induction heap with
  | nil => rfl
  | cons a t ih => simp only [List.cons_append, List.length_cons, List.getD_cons_succ]; exact ih

theorem getD_set_append (heap : List (List SvcId)) (x y : List SvcId) (j : Nat)
    (hj : j < heap.length) :
    ((heap ++ [x]).set heap.length y).getD j [] = heap.getD j [] := by
  induction heap generalizing j with
  | nil => exact absurd hj (by simp)
  | cons a t ih =>
      cases j with
      | zero => rfl
      | succ n =>
          have hn : n < t.length := by simp at hj; omega
          simpa [List.getD] using ih n hn

/-- C9: `Services()` returns a defensive copy — the fresh slice lives at a
reference distinct from the registry's own, its contents equal the internal
collection element-for-element (in registration order), and any element
write through the returned reference leaves the registry's internal
collection unchanged. -/
theorem services_defensive_copy (heap : List (List SvcId)) (meshRef : Nat)
    (h : meshRef < heap.length) :
    (servicesSnapshot heap meshRef).2 ≠ meshRef ∧
    (servicesSnapshot heap meshRef).1.getD (servicesSnapshot heap meshRef).2 []
      = heap.getD meshRef [] ∧
    ∀ i v,
      (sliceWrite (servicesSnapshot heap meshRef).1
          (servicesSnapshot heap meshRef).2 i v).getD meshRef []
        = heap.getD meshRef [] := by
  refine ⟨by simp [servicesSnapshot]; omega, ?_, ?_⟩
  · show (heap ++ [List.append [] (heap.getD meshRef [])]).getD heap.length []
      = heap.getD meshRef []
    rw [getD_append_length]
    rfl
  · intro i v
    exact getD_set_append heap _ _ meshRef h

/-- C9 (witness): on the concrete heap `[[meshId, 1]]`, writing through the
returned copy leaves the internal collection intact. -/
theorem services_defensive_copy_witness :
    (sliceWrite (servicesSnapshot [[meshId, 1]] 0).1
        (servicesSnapshot [[meshId, 1]] 0).2 0 9).getD 0 [] = [[meshId, 1]].getD 0 [] :=
  (services_defensive_copy [[meshId, 1]] 0 (by decide)).2.2 0 9

/-! ## C10 — OnServiceRemoved handler unreachable through Remove -/

/-- C10: a `Remove` call never invokes any service's `OnServiceRemoved`
handler: the emission carries no payload and the binder's adapter returns
without calling the handler when fewer than one argument is delivered, so
no `OnServiceRemoved` invocation appears anywhere in the `Remove` trace. -/
theorem remove_never_invokes_serviceRemoved (env : Env) (m : MeshState) (sid : SvcId) :
    ((Remove env m sid).2.all fun a => !(isServiceRemovedInvoke a)) = true := by
  rw [List.all_eq_true]
  intro a ha
  simp only [Bool.not_eq_true']
  have htr : (Remove env m sid).2
      = emitEvent m EventServiceRemoved []
        ++ (removeLoop sid (m.services.getD [])).1 := rfl
  rw [htr] at ha
  rcases List.mem_append.1 ha with h1 | h2
  · rcases List.mem_cons.1 h1 with he | hd
    · rw [he]; rfl
    · obtain ⟨k, s, hmem⟩ := mem_deliverAll hd
      cases k <;> simp [adapterRun] at hmem <;> rw [hmem] <;> rfl
  · rcases removeLoop_fst sid (m.services.getD []) with hf | hf <;> rw [hf] at h2
    · simp at h2
    · simp at h2; rw [h2]; rfl

/-! ## Preservation of the service collection -/

theorem newLogger_services (env : Env) (m : MeshState) (sid : SvcId) :
    (newLogger env m sid).1.services = m.services := by
  cases ho : m.logOutput <;> cases hh : m.logHandler <;> simp [newLogger, ho, hh]

theorem bindKind_services (env : Env) (m : MeshState) (sid : SvcId) (k : HandlerKind) :
    (bindKind env m sid k).1.services = m.services := by
  by_cases hk : (env.caps sid).handles k = true <;> simp [bindKind, hk]

theorem bindList_services (env : Env) (sid : SvcId) :
    ∀ (ks : List HandlerKind) (m : MeshState),
      (bindList env m sid ks).1.services = m.services := by
  intro ks
  induction ks with
  | nil => intro m; rfl
  | cons k ks ih => intro m; rw [bindList]; rw [ih]; exact bindKind_services env m sid k

theorem Add_services (env : Env) (m : MeshState) (sid : SvcId) :
    (Add env m sid).1.services
      = some ((Init env m).1.services.getD [] ++ [sid]) := by
  by_cases hl : (env.caps sid).hasLogger = true <;>
    simp [Add, hl, bindEventHandlerInterfaces, bindList_services, newLogger_services,
      setSvcLogger]

theorem Init_services_of_mem (env : Env) (m : MeshState)
    (h : meshId ∈ m.services.getD []) : (Init env m).1.services = m.services := by
  cases hs : m.services with
  | none => rw [hs] at h; simp at h
  | some l => simp [Init, hs]

theorem removeLoop_mem_preserve (sid x : SvcId) :
    ∀ l : List SvcId, x ∈ l → x ≠ sid → x ∈ (removeLoop sid l).2 := by
  intro l
  induction l with
  | nil => intro h _; simp at h
  | cons s rest ih =>
      intro h hx
      by_cases hs : s = sid
      · have : x ∈ rest := by
          rcases List.mem_cons.1 h with he | hm
          · exact absurd (he.trans hs) hx
          · exact hm
        simpa [removeLoop, hs] using this
      · rcases List.mem_cons.1 h with he | hm
        · simp [removeLoop, hs, he]
        · simp [removeLoop, hs, ih hm hx]

theorem Shutdown_services (env : Env) (m : MeshState) :
    (Shutdown env m).1.services = m.services := by
  by_cases h : m.shuttingDown = true <;> simp [Shutdown, h]

theorem updLoop_services (env : Env) :
    ∀ (l : List SvcId) (m : MeshState), (updLoop env m l).1.services = m.services := by
  intro l
  induction l with
  | nil => intro m; rfl
  | cons s rest ih =>
      intro m
      by_cases hl : (env.caps s).hasLogger = true <;>
        simp [updLoop, hl, ih, setSvcLogger, newLogger_services]

theorem SetLogLevel_services (env : Env) (m : MeshState) (lv : Int) :
    (SetLogLevel env m lv).1.services = m.services := by
  simp [SetLogLevel, updateServiceLoggers, updLoop_services, newLogger_services]

theorem SetLogDestination_services (env : Env) (m : MeshState) (w : Nat) :
    (SetLogDestination env m w).1.services = m.services := by
  simp [SetLogDestination, updateServiceLoggers, updLoop_services, newLogger_services]

theorem SetLogHandler_services (env : Env) (m : MeshState) (h : Handler) :
    (SetLogHandler env m h).1.services = m.services := by
  simp [SetLogHandler, updateServiceLoggers, updLoop_services, newLogger_services]

theorem applyOp_preserves_self (env : Env) (m : MeshState) (op : Op)
    (hop : op ≠ Op.remove meshId) (h : meshId ∈ m.services.getD []) :
    meshId ∈ (applyOp env m op).services.getD [] := by
  cases op with
  | add sid =>
      rw [applyOp, Add_services, Init_services_of_mem env m h]
      simpa using Or.inl h
  | remove sid =>
      have hsid : sid ≠ meshId := by
        intro he; exact hop (by rw [he])
      cases hs : m.services with
      | none => rw [hs] at h; simp at h
      | some l =>
          rw [hs] at h
          simp only [Option.getD_some] at h
          have := removeLoop_mem_preserve sid meshId l h (fun he => hsid he.symm)
          simp [applyOp, Remove, hs, this]
  | servicesQuery => exact h
  | shutdown => rw [applyOp, Shutdown_services]; exact h
  | setLevel l => rw [applyOp, SetLogLevel_services]; exact h
  | setDest w => rw [applyOp, SetLogDestination_services]; exact h
  | setHandler hh => rw [applyOp, SetLogHandler_services]; exact h

theorem applyOps_preserves_self (env : Env) :
    ∀ (ops : List Op) (m : MeshState),
      (∀ o ∈ ops, o ≠ Op.remove meshId) → meshId ∈ m.services.getD [] →
      meshId ∈ (applyOps env m ops).services.getD [] := by
  intro ops
  induction ops with
  | nil => intro m _ h; exact h
  | cons op ops ih =>
      intro m hops h
      rw [applyOps]
      exact ih (applyOp env m op)
        (fun o ho => hops o (List.mem_cons_of_mem op ho))
        (applyOp_preserves_self env m op (hops op (List.mem_cons_self op ops)) h)

/-! ## C3 — self-membership invariant -/

/-- C3 (counterexample): the claim quantifies over every sequence of public
operations, but `Remove` applied to the registry itself excises it from its
own collection: after `New` followed by `Remove(mesh)`, the registry is no
longer present. -/
theorem mesh_self_membership_violated :
    ¬ meshId ∈ (applyOps envPlain (New envPlain "Service Mesh")
        [Op.remove meshId]).services.getD [] := by
  decide

/-- C3 (amended): for every mesh created by `New` and every sequence of
public operations (`Add`, `Remove`, `Services`, `Shutdown`, log mutators)
in which `Remove` is never called with the registry itself as argument,
the registry is present in its own service collection. -/
theorem mesh_self_membership_invariant (env : Env) (name : String) (ops : List Op)
    (hops : ∀ o ∈ ops, o ≠ Op.remove meshId) :
    meshId ∈ (applyOps env (New env name) ops).services.getD [] := by
  apply applyOps_preserves_self env ops (New env name) hops
  rw [New, Add_services]
  simp [Init, initialState]

/-- C3 (witness): concrete sequence adding and removing a foreign service
and shutting down — the registry stays in its own collection. -/
theorem mesh_self_membership_invariant_witness :
    meshId ∈ (applyOps envPlain (New envPlain "Service Mesh")
        [Op.add 1, Op.remove 1, Op.shutdown]).services.getD [] :=
  mesh_self_membership_invariant envPlain "Service Mesh"
    [Op.add 1, Op.remove 1, Op.shutdown] (by decide)

/-! ## Dependency-resolution lemmas -/

/-- The actions of `n` iterations of the polling loop body: one
`ResolveDependencies` call followed by the 10 ms dwell sleep, `n` times. -/
def loopActions (sid : SvcId) : Nat → List Action
  | 0 => []
  | n + 1 => Action.resolveDeps sid :: Action.sleepMs 10 :: loopActions sid n

/-- The full trace of `resolveDependenciesAndInit` when the readiness check
fails exactly `n` times. -/
def resolutionTrace (env : Env) (m : MeshState) (sid : SvcId) (n : Nat) : List Action :=
  emitEvent m EventDependencyResolutionStarted [Payload.svc sid]
    ++ loopActions sid n
    ++ emitEvent m EventDependencyResolutionEnded [Payload.svc sid]
    ++ (initService env m sid).2

theorem depLoop_eq (resolvedAt : Nat → Bool) (sid : SvcId) :
    ∀ n j fuel : Nat, (∀ k, k < n → resolvedAt (j + k) = false) →
      resolvedAt (j + n) = true → n ≤ fuel →
      depLoop resolvedAt sid fuel j = some (loopActions sid n) := by
  intro n
  induction n with
  | zero =>
      intro j fuel _ h2 _
      have hj : resolvedAt j = true := by simpa using h2
      cases fuel <;> simp [depLoop, hj, loopActions]
  | succ n ih =>
      intro j fuel h1 h2 hf
      have h0 : resolvedAt j = false := by simpa using h1 0 (Nat.succ_pos n)
      cases fuel with
      | zero => omega
      | succ f =>
          have hrec : depLoop resolvedAt sid f (j + 1) = some (loopActions sid n) := by
            apply ih (j + 1) f
            · intro k hk
              rw [show j + 1 + k = j + (k + 1) by omega]
              exact h1 (k + 1) (by omega)
            · rw [show j + 1 + n = j + (n + 1) by omega]; exact h2
            · omega
          simp [depLoop, h0, hrec, loopActions]

theorem depLoop_members (resolvedAt : Nat → Bool) (sid : SvcId) :
    ∀ (fuel j : Nat) (tl : List Action), depLoop resolvedAt sid fuel j = some tl →
      ∀ a ∈ tl, a = Action.resolveDeps sid ∨ a = Action.sleepMs 10 := by
  intro fuel
  induction fuel with
  | zero =>
      intro j tl h a ha
      by_cases hj : resolvedAt j = true
      · simp [depLoop, hj] at h; subst h; simp at ha
      · simp [depLoop, hj] at h
  | succ f ih =>
      intro j tl h a ha
      by_cases hj : resolvedAt j = true
      · simp [depLoop, hj] at h; subst h; simp at ha
      · simp only [depLoop, hj, if_neg, Bool.false_eq_true, if_false, Option.map_eq_some'] at h
        obtain ⟨rest, hrest, htl⟩ := h
        rw [← htl] at ha
        rcases List.mem_cons.1 ha with he | ha2
        · exact Or.inl he
        · rcases List.mem_cons.1 ha2 with he | ha3
          · exact Or.inr he
          · exact ih (j + 1) rest hrest a ha3

theorem countEmitsOf_loopActions (tp : String) (sid : SvcId) :
    ∀ n : Nat, countEmitsOf tp (loopActions sid n) = 0 := by
  intro n
  induction n with
  | zero => rfl
  | succ n ih => simp [loopActions, countEmitsOf, ih]

theorem countResolveCalls_loopActions (sid : SvcId) :
    ∀ n : Nat, countResolveCalls sid (loopActions sid n) = n := by
  intro n
  induction n with
  | zero => rfl
  | succ n ih => simp [loopActions, countResolveCalls, ih]; omega

theorem sleepTotal_loopActions (sid : SvcId) :
    ∀ n : Nat, sleepTotal (loopActions sid n) = 10 * n := by
  intro n
  induction n with
  | zero => rfl
  | succ n ih => simp [loopActions, sleepTotal, ih]; omega

theorem emitsOnly_loopActions (sid : SvcId) :
    ∀ n : Nat, emitsOnly (loopActions sid n) = [] := by
  intro n
  induction n with
  | zero => rfl
  | succ n ih => simp [loopActions, emitsOnly, ih]

theorem countEmitsOf_Init (tp : String) (env : Env) (m : MeshState) :
    countEmitsOf tp (Init env m).2 = 0 := by
  cases hs : m.services <;> simp [Init, hs, countEmitsOf]

theorem emitsOnly_Init (env : Env) (m : MeshState) :
    emitsOnly (Init env m).2 = [] := by
  cases hs : m.services <;> simp [Init, hs, emitsOnly]

theorem countEmitsOf_initService (tp : String) (env : Env) (m : MeshState) (sid : SvcId) :
    countEmitsOf tp (initService env m sid).2
      = if EventServiceInitialized = tp then 1 else 0 := by
  by_cases hl : ((env.caps sid).hasLogger && (lookupLogger m.svcLoggers sid).isSome) = true <;>
    by_cases hm : sid = meshId <;>
      simp [initService, hl, hm, countEmitsOf_append, countEmitsOf_Init,
        countEmitsOf_emitEvent, countEmitsOf, countEmitsOf_deliverAll]

theorem emitsOnly_initService (env : Env) (m : MeshState) (sid : SvcId) :
    emitsOnly (initService env m sid).2
      = [Action.emit EventServiceInitialized [Payload.svc sid]] := by
  by_cases hl : ((env.caps sid).hasLogger && (lookupLogger m.svcLoggers sid).isSome) = true <;>
    by_cases hm : sid = meshId <;>
      simp [initService, hl, hm, emitsOnly_append, emitsOnly_Init,
        emitsOnly_emitEvent, emitsOnly, emitsOnly_deliverAll]

theorem countResolveCalls_adapterRun (sid : SvcId) (k : HandlerKind) (s : SvcId)
    (args : List Payload) : countResolveCalls sid (adapterRun k s args) = 0 := by
  rcases adapterRun_cases k s args with hc | ⟨arg, hc⟩ <;> rw [hc] <;> rfl

theorem countResolveCalls_deliverAll (sid : SvcId)
    (subs : List (String × HandlerKind × SvcId)) (topic : String) (args : List Payload) :
    countResolveCalls sid (deliverAll subs topic args) = 0 := by
  induction subs with
  | nil => rfl
  | cons p rest ih =>
      obtain ⟨tp', k, s⟩ := p
      rw [deliverAll, countResolveCalls_append, ih]
      by_cases htp : tp' = topic
      · rw [if_pos htp, countResolveCalls_adapterRun]
      · rw [if_neg htp]; rfl

theorem countResolveCalls_emitEvent (sid : SvcId) (m : MeshState) (topic : String)
    (args : List Payload) : countResolveCalls sid (emitEvent m topic args) = 0 := by
  rw [emitEvent, countResolveCalls, countResolveCalls_deliverAll]; rfl

theorem countResolveCalls_Init (sid : SvcId) (env : Env) (m : MeshState) :
    countResolveCalls sid (Init env m).2 = 0 := by
  cases hs : m.services <;> simp [Init, hs, countResolveCalls]

theorem countResolveCalls_initService (sid : SvcId) (env : Env) (m : MeshState)
    (sid' : SvcId) : countResolveCalls sid (initService env m sid').2 = 0 := by
  by_cases hl : ((env.caps sid').hasLogger && (lookupLogger m.svcLoggers sid').isSome) = true <;>
    by_cases hm : sid' = meshId <;>
      simp [initService, hl, hm, countResolveCalls_append, countResolveCalls_Init,
        countResolveCalls_emitEvent, countResolveCalls, countResolveCalls_deliverAll]

/-! ## C5 — dependency-resolution protocol -/

/-- C5: for a `DependencyResolver` service whose readiness check fails
exactly `n` times and then succeeds, `resolveDependenciesAndInit` emits
`DependencyResolutionStarted` exactly once, calls `ResolveDependencies`
exactly `n` times with the fixed 10 ms dwell sleep after each (so
`10 * n` ms of dwell in total), then emits `DependencyResolutionEnded`
exactly once, then proceeds to standard initialization — the whole task
trace is exactly `resolutionTrace`. -/
theorem dependency_resolution_protocol (env : Env) (m : MeshState) (sid : SvcId)
    (n fuel : Nat)
    (h1 : ∀ k, k < n → (env.caps sid).resolvedAt k = false)
    (h2 : (env.caps sid).resolvedAt n = true)
    (hf : n ≤ fuel) :
    resolveDependenciesAndInit env m sid fuel
      = some ((initService env m sid).1, resolutionTrace env m sid n) ∧
    countEmitsOf EventDependencyResolutionStarted (resolutionTrace env m sid n) = 1 ∧
    countResolveCalls sid (resolutionTrace env m sid n) = n ∧
    countEmitsOf EventDependencyResolutionEnded (resolutionTrace env m sid n) = 1 ∧
    sleepTotal (loopActions sid n) = 10 * n := by
  have hdl : depLoop (env.caps sid).resolvedAt sid fuel 0 = some (loopActions sid n) := by
    apply depLoop_eq (env.caps sid).resolvedAt sid n 0 fuel
    · intro k hk; simpa using h1 k hk
    · simpa using h2
    · exact hf
  refine ⟨?_, ?_, ?_, ?_, sleepTotal_loopActions sid n⟩
  · simp [resolveDependenciesAndInit, hdl, resolutionTrace]
  · simp [resolutionTrace, countEmitsOf_append, countEmitsOf_emitEvent,
      countEmitsOf_loopActions, countEmitsOf_initService,
      EventDependencyResolutionStarted, EventDependencyResolutionEnded,
      EventServiceInitialized]
  · simp [resolutionTrace, countResolveCalls_append, countResolveCalls_emitEvent,
      countResolveCalls_loopActions, countResolveCalls_initService]
  · simp [resolutionTrace, countEmitsOf_append, countEmitsOf_emitEvent,
      countEmitsOf_loopActions, countEmitsOf_initService,
      EventDependencyResolutionStarted, EventDependencyResolutionEnded,
      EventServiceInitialized]

/-- An environment whose service 1 is a `DependencyResolver` whose
readiness check fails exactly twice. -/
def envDep2 : Env :=
  { capsOf := fun sid =>
      if sid = 1 then { hasDeps := true, resolvedAt := fun k => decide (2 ≤ k) } else {},
    nameOf := fun _ => "example" }

/-- A fresh mesh state used as the starting point of resolution tasks. -/
def stW : MeshState := initialState "Service Mesh"

/-- C5 (witness): with the readiness check failing exactly twice, the task
makes exactly two `ResolveDependencies` calls, one emission of each
resolution event, and at least 20 ms of dwell (`10 * 2`). -/
theorem dependency_resolution_protocol_witness :
    resolveDependenciesAndInit envDep2 stW 1 2
      = some ((initService envDep2 stW 1).1, resolutionTrace envDep2 stW 1 2) ∧
    countEmitsOf EventDependencyResolutionStarted (resolutionTrace envDep2 stW 1 2) = 1 ∧
    countResolveCalls 1 (resolutionTrace envDep2 stW 1 2) = 2 ∧
    countEmitsOf EventDependencyResolutionEnded (resolutionTrace envDep2 stW 1 2) = 1 ∧
    sleepTotal (loopActions 1 2) = 10 * 2 :=
  dependency_resolution_protocol envDep2 stW 1 2 2
    (fun k hk => by
      have : (2 ≤ k) = False := by simp; omega
      simp [envDep2, Env.caps, meshId, this])
    (by decide) (by decide)

/-! ## C6 — initialization strictly after resolution end -/

theorem emitsOnly_nil_of_members (sid : SvcId) :
    ∀ t : List Action,
      (∀ a ∈ t, a = Action.resolveDeps sid ∨ a = Action.sleepMs 10) →
      emitsOnly t = [] := by
  intro t
  induction t with
  | nil => intro _; rfl
  | cons a t ih =>
      intro h
      rcases h a (List.mem_cons_self a t) with ha | ha <;> subst ha <;>
        simp [emitsOnly, ih (fun b hb => h b (List.mem_cons_of_mem _ hb))]

/-- C6: in the trace of a `DependencyResolver` service's resolution task,
every emission of `EventServiceInitialized` for that service is preceded by
an emission of `EventDependencyResolutionEnded` for the same service: for
every split of the task trace just before a `ServiceInitialized` emission,
the prefix already contains the `DependencyResolutionEnded` emission. -/
theorem init_emitted_after_resolution_end (env : Env) (m : MeshState) (sid : SvcId)
    (fuel : Nat) (h : (resolveDependenciesAndInit env m sid fuel).isSome = true)
    (p q : List Action)
    (hs : ((resolveDependenciesAndInit env m sid fuel).getD (m, [])).2
        = p ++ Action.emit EventServiceInitialized [Payload.svc sid] :: q) :
    Action.emit EventDependencyResolutionEnded [Payload.svc sid] ∈ p := by
  cases hdl : depLoop (env.caps sid).resolvedAt sid fuel 0 with
  | none => rw [resolveDependenciesAndInit, hdl] at h; simp at h
  | some tl =>
      have htl : emitsOnly tl = [] :=
        emitsOnly_nil_of_members sid tl
          (depLoop_members (env.caps sid).resolvedAt sid fuel 0 tl hdl)
      have hem : emitsOnly (((resolveDependenciesAndInit env m sid fuel).getD (m, [])).2)
          = [Action.emit EventDependencyResolutionStarted [Payload.svc sid],
             Action.emit EventDependencyResolutionEnded [Payload.svc sid],
             Action.emit EventServiceInitialized [Payload.svc sid]] := by
        rw [resolveDependenciesAndInit, hdl]
        simp [emitsOnly_append, emitsOnly_emitEvent, htl, emitsOnly_initService]
      rw [hs, emitsOnly_append] at hem
      rw [show emitsOnly (Action.emit EventServiceInitialized [Payload.svc sid] :: q)
          = Action.emit EventServiceInitialized [Payload.svc sid] :: emitsOnly q
          from rfl] at hem
      cases hp : emitsOnly p with
      | nil =>
          rw [hp] at hem
          simp only [List.nil_append, List.cons.injEq, Action.emit.injEq] at hem
          exact absurd hem.1.1 (by decide)
      | cons x xs =>
          cases xs with
          | nil =>
              rw [hp] at hem
              simp only [List.cons_append, List.nil_append, List.cons.injEq,
                Action.emit.injEq] at hem
              exact absurd hem.2.1.1 (by decide)
          | cons y ys =>
              cases ys with
              | nil =>
                  rw [hp] at hem
                  simp only [List.cons_append, List.nil_append, List.cons.injEq] at hem
                  have hy : y = Action.emit EventDependencyResolutionEnded [Payload.svc sid] :=
                    hem.2.1
                  have hmem : y ∈ emitsOnly p := by rw [hp]; simp
                  exact hy ▸ mem_emitsOnly hmem
              | cons z zs =>
                  rw [hp] at hem
                  have hlen := congrArg List.length hem
                  simp [List.length_append] at hlen

/-- An environment whose service 1 is a `DependencyResolver` whose
readiness check fails exactly once. -/
def envDep1 : Env :=
  { capsOf := fun sid =>
      if sid = 1 then { hasDeps := true, resolvedAt := fun k => decide (1 ≤ k) } else {},
    nameOf := fun _ => "example" }

/-- C6 (witness): on the concrete resolution task of service 1, splitting
the trace just before the `ServiceInitialized` emission, the prefix
contains the `DependencyResolutionEnded` emission. -/
theorem init_emitted_after_resolution_end_witness :
    Action.emit EventDependencyResolutionEnded [Payload.svc 1]
      ∈ ([Action.emit EventDependencyResolutionStarted [Payload.svc 1],
          Action.resolveDeps 1, Action.sleepMs 10,
          Action.emit EventDependencyResolutionEnded [Payload.svc 1],
          Action.logRecord levelDebug "initializing", Action.initCall 1] : List Action) :=
  init_emitted_after_resolution_end envDep1 stW 1 1 (by decide)
    [Action.emit EventDependencyResolutionStarted [Payload.svc 1],
     Action.resolveDeps 1, Action.sleepMs 10,
     Action.emit EventDependencyResolutionEnded [Payload.svc 1],
     Action.logRecord levelDebug "initializing", Action.initCall 1] [] (by decide)

/-! ## State-preservation lemmas for the asynchronous initialization task -/

theorem newLogger_svcLoggers (env : Env) (m : MeshState) (sid : SvcId) :
    (newLogger env m sid).1.svcLoggers = m.svcLoggers := by
  cases ho : m.logOutput <;> cases hh : m.logHandler <;> simp [newLogger, ho, hh]

theorem Init_of_some (env : Env) (m : MeshState) (l : List SvcId)
    (h : m.services = some l) : Init env m = (m, []) := by
  simp [Init, h]

theorem Init_svcLoggers (env : Env) (m : MeshState) :
    (Init env m).1.svcLoggers = m.svcLoggers := by
  cases hs : m.services <;> simp [Init, hs, newLogger_svcLoggers]

theorem initService_svcLoggers (env : Env) (m : MeshState) (sid : SvcId) :
    (initService env m sid).1.svcLoggers = m.svcLoggers := by
  simp only [initService]
  split
  · rw [Init_svcLoggers]
    split
    · rfl
    · exact newLogger_svcLoggers env m sid
  · split
    · rfl
    · exact newLogger_svcLoggers env m sid

theorem initService_services_of_some (env : Env) (m : MeshState) (sid : SvcId)
    (l : List SvcId) (h : m.services = some l) :
    (initService env m sid).1.services = some l := by
  by_cases hl : ((env.caps sid).hasLogger && (lookupLogger m.svcLoggers sid).isSome) = true
  · by_cases hm : sid = meshId
    · subst hm
      simp [initService, hl, Init_of_some env m l h, h]
    · simp [initService, hl, hm, h]
  · by_cases hm : sid = meshId
    · subst hm
      have h2 : (newLogger env m meshId).1.services = some l := by
        rw [newLogger_services]; exact h
      simp [initService, hl, Init_of_some env _ l h2, h2]
    · simp [initService, hl, hm, newLogger_services, h]

theorem Add_logger_assigned (env : Env) (m : MeshState) (sid : SvcId)
    (h : (env.caps sid).hasLogger = true) :
    (lookupLogger (Add env m sid).1.svcLoggers sid).isSome = true := by
  simp [Add, h, setSvcLogger, lookupLogger]

/-! ## C8 — Add followed by waiting on the handle -/

/-- C8: whenever `Add(service)` followed by waiting on the returned
completion handle completes, the resulting collection contains the service,
and if the service exposes the logger capability its logger field is
non-null. -/
theorem add_wait_registers_service (env : Env) (m : MeshState) (sid : SvcId)
    (fuel : Nat) (h : (AddAndWait env m sid fuel).isSome = true) :
    sid ∈ ((AddAndWait env m sid fuel).getD (m, [])).1.services.getD [] ∧
    ((env.caps sid).hasLogger = true →
      (lookupLogger ((AddAndWait env m sid fuel).getD (m, [])).1.svcLoggers sid).isSome
        = true) := by
  have hserv : (Add env m sid).1.services
      = some ((Init env m).1.services.getD [] ++ [sid]) := Add_services env m sid
  have hfst : ((AddAndWait env m sid fuel).getD (m, [])).1
      = (initService env (Add env m sid).1 sid).1 := by
    by_cases hd : (env.caps sid).hasDeps = true
    · have hp : (Add env m sid).2.2 = Pending.resolveAndInit sid := by simp [Add, hd]
      cases hdl : depLoop (env.caps sid).resolvedAt sid fuel 0 with
      | none =>
          have hnone : AddAndWait env m sid fuel = none := by
            simp [AddAndWait, hp, runPending, resolveDependenciesAndInit, hdl]
          rw [hnone] at h; simp at h
      | some tl =>
          simp [AddAndWait, hp, runPending, resolveDependenciesAndInit, hdl]
    · have hp : (Add env m sid).2.2 = Pending.initOnly sid := by simp [Add, hd]
      simp [AddAndWait, hp, runPending]
  constructor
  · rw [hfst, initService_services_of_some env _ sid _ hserv]
    simp
  · intro hcap
    rw [hfst, initService_svcLoggers]
    exact Add_logger_assigned env m sid hcap

/-- An environment whose service 1 implements `ServiceLogger` and nothing
else. -/
def envLog1 : Env :=
  { capsOf := fun sid => if sid = 1 then { hasLogger := true } else {},
    nameOf := fun _ => "example" }

/-- C8 (witness): adding the logger-capable service 1 to a fresh mesh and
waiting on the handle leaves it registered with a non-null logger. -/
theorem add_wait_registers_service_witness :
    (AddAndWait envLog1 (New envLog1 "Service Mesh") 1 0).isSome = true ∧
    (1 ∈ ((AddAndWait envLog1 (New envLog1 "Service Mesh") 1 0).getD
        (New envLog1 "Service Mesh", [])).1.services.getD [] ∧
      ((envLog1.caps 1).hasLogger = true →
        (lookupLogger ((AddAndWait envLog1 (New envLog1 "Service Mesh") 1 0).getD
            (New envLog1 "Service Mesh", [])).1.svcLoggers 1).isSome = true)) :=
  ⟨by decide, add_wait_registers_service envLog1 (New envLog1 "Service Mesh") 1 0 (by decide)⟩

/-! ## Logger-configuration lemmas -/

/-- A state whose log output and handler are both populated — once
`newLogger` has run once, this always holds, and `newLogger` is then free
of state side effects. -/
def stable (m : MeshState) : Prop :=
  m.logOutput.isSome = true ∧ m.logHandler.isSome = true

/-- The logger `newLogger` derives for a service from the current
configuration. -/
def derivedLogger (env : Env) (m : MeshState) (sid : SvcId) : Logger :=
  (newLogger env m sid).2

/-- The state holding the regenerated registry logger, shared by the tail
of all three log mutators. -/
def regenState (env : Env) (m1 : MeshState) : MeshState :=
  { (newLogger env m1 meshId).1 with logger := some (newLogger env m1 meshId).2 }

/-- The common tail of the three log mutators: regenerate the registry's
own logger, then propagate fresh loggers to all logger-capable services. -/
def regenAndPropagate (env : Env) (m1 : MeshState) : MeshState × List Action :=
  updateServiceLoggers env (regenState env m1)

theorem newLogger_logLevel (env : Env) (m : MeshState) (sid : SvcId) :
    (newLogger env m sid).1.logLevel = m.logLevel := by
  cases ho : m.logOutput <;> cases hh : m.logHandler <;> simp [newLogger, ho, hh]

theorem newLogger_logOutput_some (env : Env) (m : MeshState) (sid : SvcId) (w : Nat)
    (h : m.logOutput = some w) : (newLogger env m sid).1.logOutput = some w := by
  cases hh : m.logHandler <;> simp [newLogger, h, hh]

theorem newLogger_logHandler_some (env : Env) (m : MeshState) (sid : SvcId) (hd : Handler)
    (h : m.logHandler = some hd) : (newLogger env m sid).1.logHandler = some hd := by
  cases ho : m.logOutput <;> simp [newLogger, ho, h]

theorem newLogger_fst_of_stable (env : Env) (m : MeshState) (sid : SvcId)
    (h : stable m) : (newLogger env m sid).1 = m := by
  obtain ⟨h1, h2⟩ := h
  cases ho : m.logOutput with
  | none => rw [ho] at h1; simp at h1
  | some w =>
      cases hh : m.logHandler with
      | none => rw [hh] at h2; simp at h2
      | some hd => simp [newLogger, ho, hh]

theorem newLogger_fst_stable (env : Env) (m : MeshState) (sid : SvcId) :
    stable (newLogger env m sid).1 := by
  cases ho : m.logOutput <;> cases hh : m.logHandler <;>
    simp [stable, newLogger, ho, hh]

theorem derivedLogger_newLogger_fst (env : Env) (m : MeshState) (sid : SvcId) :
    derivedLogger env (newLogger env m sid).1 sid = (newLogger env m sid).2 := by
  cases ho : m.logOutput <;> cases hh : m.logHandler <;>
    simp [derivedLogger, newLogger, ho, hh]

theorem derivedLogger_config (env : Env) (m m' : MeshState) (sid : SvcId)
    (ho : m'.logOutput = m.logOutput) (hh : m'.logHandler = m.logHandler)
    (hl : m'.logLevel = m.logLevel) :
    derivedLogger env m' sid = derivedLogger env m sid := by
  cases h1 : m.logOutput <;> cases h2 : m.logHandler <;>
    simp [derivedLogger, newLogger, ho, hh, hl, h1, h2]

theorem updLoop_shape (env : Env) :
    ∀ (l : List SvcId) (m : MeshState), stable m →
      ∃ sl, (updLoop env m l).1 = { m with svcLoggers := sl } := by
  intro l
  induction l with
  | nil => intro m _; exact ⟨m.svcLoggers, rfl⟩
  | cons s rest ih =>
      intro m h
      by_cases hc : (env.caps s).hasLogger = true
      · have hupd : (updLoop env m (s :: rest)).1
            = (updLoop env
                (setSvcLogger (newLogger env m s).1 s (newLogger env m s).2) rest).1 := by
          simp [updLoop, hc]
        rw [hupd, newLogger_fst_of_stable env m s h]
        obtain ⟨sl, hsl⟩ := ih (setSvcLogger m s (newLogger env m s).2) h
        refine ⟨sl, ?_⟩
        rw [hsl]
        rfl
      · have hupd : (updLoop env m (s :: rest)).1 = (updLoop env m rest).1 := by
          simp [updLoop, hc]
        rw [hupd]; exact ih m h

theorem updLoop_lookup_not_mem (env : Env) :
    ∀ (l : List SvcId) (m : MeshState) (sid : SvcId), sid ∉ l →
      lookupLogger (updLoop env m l).1.svcLoggers sid
        = lookupLogger m.svcLoggers sid := by
  intro l
  induction l with
  | nil => intro m sid _; rfl
  | cons s rest ih =>
      intro m sid h
      simp only [List.mem_cons, not_or] at h
      have hns : ¬ s = sid := fun he => h.1 he.symm
      by_cases hc : (env.caps s).hasLogger = true
      · have hupd : (updLoop env m (s :: rest)).1
            = (updLoop env
                (setSvcLogger (newLogger env m s).1 s (newLogger env m s).2) rest).1 := by
          simp [updLoop, hc]
        rw [hupd, ih _ sid h.2]
        simp [setSvcLogger, lookupLogger, hns, newLogger_svcLoggers]
      · have hupd : (updLoop env m (s :: rest)).1 = (updLoop env m rest).1 := by
          simp [updLoop, hc]
        rw [hupd]; exact ih m sid h.2

theorem updLoop_lookup_mem (env : Env) :
    ∀ (l : List SvcId) (m : MeshState) (sid : SvcId), stable m → sid ∈ l →
      (env.caps sid).hasLogger = true →
      lookupLogger (updLoop env m l).1.svcLoggers sid
        = some (derivedLogger env m sid) := by
  intro l
  induction l with
  | nil => intro m sid _ h _; simp at h
  | cons s rest ih =>
      intro m sid hst hmem hcap
      by_cases hin : sid ∈ rest
      · by_cases hc : (env.caps s).hasLogger = true
        · have hupd : (updLoop env m (s :: rest)).1
              = (updLoop env
                  (setSvcLogger (newLogger env m s).1 s (newLogger env m s).2) rest).1 := by
            simp [updLoop, hc]
          rw [hupd, newLogger_fst_of_stable env m s hst]
          have hrec := ih (setSvcLogger m s (newLogger env m s).2) sid hst hin hcap
          rw [derivedLogger_config env m (setSvcLogger m s (newLogger env m s).2) sid
            rfl rfl rfl] at hrec
          exact hrec
        · have hupd : (updLoop env m (s :: rest)).1 = (updLoop env m rest).1 := by
            simp [updLoop, hc]
          rw [hupd]; exact ih m sid hst hin hcap
      · have hss : sid = s := by
          rcases List.mem_cons.1 hmem with he | hm
          · exact he
          · exact absurd hm hin
        subst hss
        have hupd : (updLoop env m (sid :: rest)).1
            = (updLoop env
                (setSvcLogger (newLogger env m sid).1 sid (newLogger env m sid).2) rest).1 := by
          simp [updLoop, hcap]
        rw [hupd, newLogger_fst_of_stable env m sid hst,
          updLoop_lookup_not_mem env rest _ sid hin]
        simp [setSvcLogger, lookupLogger, derivedLogger]

theorem updLoop_no_emits (env : Env) :
    ∀ (l : List SvcId) (m : MeshState), emitsOnly (updLoop env m l).2 = [] := by
  intro l
  induction l with
  | nil => intro m; rfl
  | cons s rest ih =>
      intro m
      by_cases hc : (env.caps s).hasLogger = true <;>
        simp [updLoop, hc, emitsOnly, ih]

theorem updLoop_no_info (env : Env) :
    ∀ (l : List SvcId) (m : MeshState), hasInfoRecord (updLoop env m l).2 = false := by
  intro l
  induction l with
  | nil => intro m; rfl
  | cons s rest ih =>
      intro m
      by_cases hc : (env.caps s).hasLogger = true <;>
        simp [updLoop, hc, hasInfoRecord] <;>
        have := ih (setSvcLogger (newLogger env m s).1 s (newLogger env m s).2) <;>
        have h2 := ih m <;>
        simp [hasInfoRecord] at this h2 <;> assumption

theorem regen_fields (env : Env) (m1 : MeshState) :
    (∀ w, m1.logOutput = some w → (regenAndPropagate env m1).1.logOutput = some w) ∧
    (∀ hd, m1.logHandler = some hd →
      (regenAndPropagate env m1).1.logHandler = some hd) ∧
    (regenAndPropagate env m1).1.logLevel = m1.logLevel ∧
    (regenAndPropagate env m1).1.logger
      = some (derivedLogger env (regenAndPropagate env m1).1 meshId) ∧
    emitsOnly (regenAndPropagate env m1).2 = [] ∧
    hasInfoRecord (regenAndPropagate env m1).2 = false ∧
    (∀ sid ∈ Services m1, (env.caps sid).hasLogger = true →
      lookupLogger (regenAndPropagate env m1).1.svcLoggers sid
        = some (derivedLogger env (regenAndPropagate env m1).1 sid)) := by
  have hst : stable (regenState env m1) := newLogger_fst_stable env m1 meshId
  have hr : regenAndPropagate env m1
      = updLoop env (regenState env m1) (Services (regenState env m1)) := rfl
  obtain ⟨sl, hsl⟩ := updLoop_shape env (Services (regenState env m1)) (regenState env m1) hst
  have hsvc3 : Services (regenState env m1) = Services m1 := by
    show List.append [] ((regenState env m1).services.getD [])
        = List.append [] (m1.services.getD [])
    rw [show (regenState env m1).services = (newLogger env m1 meshId).1.services from rfl,
      newLogger_services]
  refine ⟨?_, ?_, ?_, ?_, ?_, ?_, ?_⟩
  · intro w hw
    rw [hr, hsl]
    show (newLogger env m1 meshId).1.logOutput = some w
    exact newLogger_logOutput_some env m1 meshId w hw
  · intro hd hh
    rw [hr, hsl]
    show (newLogger env m1 meshId).1.logHandler = some hd
    exact newLogger_logHandler_some env m1 meshId hd hh
  · rw [hr, hsl]
    show (newLogger env m1 meshId).1.logLevel = m1.logLevel
    exact newLogger_logLevel env m1 meshId
  · rw [hr, hsl]
    show some (newLogger env m1 meshId).2
        = some (derivedLogger env { regenState env m1 with svcLoggers := sl } meshId)
    rw [derivedLogger_config env (newLogger env m1 meshId).1
      { regenState env m1 with svcLoggers := sl } meshId rfl rfl rfl]
    rw [derivedLogger_newLogger_fst]
  · rw [hr]; exact updLoop_no_emits env (Services (regenState env m1)) (regenState env m1)
  · rw [hr]; exact updLoop_no_info env (Services (regenState env m1)) (regenState env m1)
  · intro sid hmem hcap
    rw [hr]
    have hmem3 : sid ∈ Services (regenState env m1) := by rw [hsvc3]; exact hmem
    have hlook := updLoop_lookup_mem env (Services (regenState env m1))
      (regenState env m1) sid hst hmem3 hcap
    rw [hlook, hsl]
    rw [derivedLogger_config env (regenState env m1)
      { regenState env m1 with svcLoggers := sl } sid rfl rfl rfl]

theorem SetLogLevel_eq (env : Env) (m : MeshState) (lv : Int) :
    SetLogLevel env m lv
      = ((regenAndPropagate env { m with logLevel := lv }).1,
        Action.logRecord levelInfo ("setting log level to " ++ toString lv)
          :: (regenAndPropagate env { m with logLevel := lv }).2) := rfl

theorem SetLogDestination_eq (env : Env) (m : MeshState) (w : Nat) :
    SetLogDestination env m w = regenAndPropagate env { m with logOutput := some w } := rfl

theorem SetLogHandler_eq (env : Env) (m : MeshState) (hd : Handler) :
    SetLogHandler env m hd = regenAndPropagate env { m with logHandler := some hd } := rfl

/-! ## C2 — log mutators -/

/-- An environment in which services 1 and 2 implement `ServiceLogger`. -/
def envLog12 : Env :=
  { capsOf := fun sid => if sid = 1 ∨ sid = 2 then { hasLogger := true } else {},
    nameOf := fun _ => "example" }

/-- A mesh holding itself and the two logger-capable services 1 and 2. -/
def stLoggers : MeshState :=
  { initialState "Service Mesh" with services := some [meshId, 1, 2] }

/-- C2 (counterexample): the claim has every mutator emit an informational
record noting the change, but on a concrete mesh with two registered
logger-capable services, `SetLogDestination` writes no log record at all
(only `SetLogLevel` logs its change). -/
theorem setLogDestination_emits_no_record :
    hasInfoRecord (SetLogDestination envLog12 stLoggers 1).2 = false := by
  decide

/-- C2 (amended): each of `SetLogLevel`, `SetLogDestination` and
`SetLogHandler` replaces its process-wide configuration field, regenerates
the registry's own logger, and, before returning, re-derives and
re-assigns a fresh logger rooted in the registry's current
handler/level/destination to every currently registered service exposing
the logger capability, emitting no event at all (in particular no
`ServiceLoggerBound`); of the three, only `SetLogLevel` emits an
informational record noting the change — `SetLogDestination` and
`SetLogHandler` write no record. -/
theorem log_mutators_propagate (env : Env) (m : MeshState) (lv : Int) (w : Nat)
    (hd : Handler) :
    ((SetLogLevel env m lv).1.logLevel = lv ∧
      (SetLogLevel env m lv).1.logger
        = some (derivedLogger env (SetLogLevel env m lv).1 meshId) ∧
      hasInfoRecord (SetLogLevel env m lv).2 = true ∧
      emitsOnly (SetLogLevel env m lv).2 = [] ∧
      (∀ sid ∈ Services m, (env.caps sid).hasLogger = true →
        lookupLogger (SetLogLevel env m lv).1.svcLoggers sid
          = some (derivedLogger env (SetLogLevel env m lv).1 sid))) ∧
    ((SetLogDestination env m w).1.logOutput = some w ∧
      (SetLogDestination env m w).1.logger
        = some (derivedLogger env (SetLogDestination env m w).1 meshId) ∧
      hasInfoRecord (SetLogDestination env m w).2 = false ∧
      emitsOnly (SetLogDestination env m w).2 = [] ∧
      (∀ sid ∈ Services m, (env.caps sid).hasLogger = true →
        lookupLogger (SetLogDestination env m w).1.svcLoggers sid
          = some (derivedLogger env (SetLogDestination env m w).1 sid))) ∧
    ((SetLogHandler env m hd).1.logHandler = some hd ∧
      (SetLogHandler env m hd).1.logger
        = some (derivedLogger env (SetLogHandler env m hd).1 meshId) ∧
      hasInfoRecord (SetLogHandler env m hd).2 = false ∧
      emitsOnly (SetLogHandler env m hd).2 = [] ∧
      (∀ sid ∈ Services m, (env.caps sid).hasLogger = true →
        lookupLogger (SetLogHandler env m hd).1.svcLoggers sid
          = some (derivedLogger env (SetLogHandler env m hd).1 sid))) := by
  have rl := regen_fields env { m with logLevel := lv }
  have rd := regen_fields env { m with logOutput := some w }
  have rh := regen_fields env { m with logHandler := some hd }
  refine ⟨⟨?_, ?_, ?_, ?_, ?_⟩, ⟨?_, ?_, ?_, ?_, ?_⟩, ⟨?_, ?_, ?_, ?_, ?_⟩⟩
  · rw [SetLogLevel_eq]
    exact rl.2.2.1
  · rw [SetLogLevel_eq]
    exact rl.2.2.2.1
  · rw [SetLogLevel_eq]
    simp [hasInfoRecord, levelInfo]
  · rw [SetLogLevel_eq]
    show List.append []
        (emitsOnly (regenAndPropagate env { m with logLevel := lv }).2) = []
    rw [rl.2.2.2.2.1]
    rfl
  · intro sid hmem hcap
    rw [SetLogLevel_eq]
    exact rl.2.2.2.2.2.2 sid hmem hcap
  · rw [SetLogDestination_eq]
    exact rd.1 w rfl
  · rw [SetLogDestination_eq]
    exact rd.2.2.2.1
  · rw [SetLogDestination_eq]
    exact rd.2.2.2.2.2.1
  · rw [SetLogDestination_eq]
    exact rd.2.2.2.2.1
  · intro sid hmem hcap
    rw [SetLogDestination_eq]
    exact rd.2.2.2.2.2.2 sid hmem hcap
  · rw [SetLogHandler_eq]
    exact rh.2.1 hd rfl
  · rw [SetLogHandler_eq]
    exact rh.2.2.2.1
  · rw [SetLogHandler_eq]
    exact rh.2.2.2.2.2.1
  · rw [SetLogHandler_eq]
    exact rh.2.2.2.2.1
  · intro sid hmem hcap
    rw [SetLogHandler_eq]
    exact rh.2.2.2.2.2.2 sid hmem hcap

/-- C2 (witness): after `SetLogLevel` on a mesh with the two registered
logger-capable services 1 and 2, service 1 holds the freshly derived
logger. -/
theorem log_mutators_propagate_witness :
    lookupLogger (SetLogLevel envLog12 stLoggers 5).1.svcLoggers 1
      = some (derivedLogger envLog12 (SetLogLevel envLog12 stLoggers 5).1 1) :=
  (log_mutators_propagate envLog12 stLoggers 5 1 (Handler.custom 7)).1.2.2.2.2
    1 (by decide) (by decide)

end Servicemesh
